import Mathlib

/-!
Verification of the data-coverage cache of `binance_data_framework` /
`leviafan_dl` against its natural-language specification.

The repository stores OHLCV bars in three storage backends:

* `LocalStorage` (`leviafan_dl/storage/local_storage.py`, DuckDB): tables
  `bars_data` (primary key `(timestamp, symbol, timeframe, source)`) and
  `data_metadata` (primary key `(symbol, timeframe, data_type, source)`).
* `LocalDataManager` (`binance_data_framework/database_handler.py`, SQLite):
  tables `ohlcv_data` (primary key `(timestamp, symbol, timeframe)`) and
  `metadata` (primary key `(symbol, timeframe)`).
* `CloudDataManager` (`binance_data_framework/cloud_storage.py`, Cloud SQL):
  same schema as `LocalDataManager`.

Tables are modelled as lists of rows (list order plays the role of the
engine's row order; `find?` models `fetchone()` on an unordered scan).
Timestamps are integers (milliseconds), prices and volumes are rationals.
Wall-clock columns (`last_updated` / `last_update`) are omitted: they are
ambient state that no queried behaviour depends on.
-/

/-- One OHLCV bar as it flows through the system (a row of the caller's
DataFrame): open time in ms, then open/high/low/close prices and volume. -/
structure RBar where
  ts : Int
  o : Rat
  hi : Rat
  lo : Rat
  c : Rat
  v : Rat
deriving DecidableEq, Repr

/-- A row of `LocalStorage`'s `bars_data` table
(`timestamp, symbol, timeframe, source, open, high, low, close, volume`). -/
structure LSBarRow where
  ts : Int
  symbol : String
  timeframe : String
  source : String
  o : Rat
  hi : Rat
  lo : Rat
  c : Rat
  v : Rat
deriving DecidableEq, Repr

/-- A row of `LocalStorage`'s `data_metadata` table.  `last_updated`
(wall clock) is omitted. -/
structure LSMetaRow where
  symbol : String
  timeframe : String
  dataType : String
  source : String
  startTs : Int
  endTs : Int
  recordCount : Nat
deriving DecidableEq, Repr

/-- The persistent state of `LocalStorage` (the DuckDB file): the bar table
and the metadata table.  The tick table is not needed by any property
verified here. -/
structure LSState where
  bars : List LSBarRow
  metadata : List LSMetaRow
deriving DecidableEq, Repr

/-- The empty `LocalStorage` database (freshly created tables). -/
def LSState.empty : LSState := { bars := [], metadata := [] }

/-- Key predicate of `LocalStorage.save`'s DELETE statement:
`WHERE symbol = ? AND timeframe = ? AND source = ?`. -/
def LSBarRow.keyMatch (r : LSBarRow) (symbol timeframe source : String) : Bool :=
  r.symbol == symbol && r.timeframe == timeframe && r.source == source

/-- `min` over the timestamps of a non-empty bar list
(`df['timestamp'].min()`). -/
def minTs (b : RBar) (bs : List RBar) : Int :=
  bs.foldl (fun m x => min m x.ts) b.ts

/-- `max` over the timestamps of a non-empty bar list
(`df['timestamp'].max()`). -/
def maxTs (b : RBar) (bs : List RBar) : Int :=
  bs.foldl (fun m x => max m x.ts) b.ts

/-- `LocalStorage.save` for `data_type='bars'` (`local_storage.py` lines
118-176).  An empty DataFrame returns `True` without touching the
database.  With a non-empty DataFrame the code first DELETEs every
`bars_data` row with the same `(symbol, timeframe, source)` — effective
immediately, as the DuckDB connection autocommits each statement — and
then runs `INSERT INTO bars_data SELECT * FROM df_copy` (line 147).  That
insert binds **positionally**, and `df_copy`'s column order
`(timestamp, open, high, low, close, volume, symbol, timeframe, source)`
does not match the table's
`(timestamp, symbol, timeframe, source, open, high, low, close, volume)`:
the `symbol` string lands in the `low DOUBLE` slot, its cast fails, the
exception is caught at line 174, and `save` returns `False`.  No incoming
row is ever stored and `_update_metadata` (line 169) is never reached, so
the metadata table is untouched. -/
def LocalStorage.saveBars (df : List RBar) (symbol timeframe source : String)
    (st : LSState) : Bool × LSState :=
  match df with
  | [] => (true, st)
  | _ :: _ =>
    (false,
     { st with bars := st.bars.filter (fun r => !(r.keyMatch symbol timeframe source)) })

/-- `LocalStorage.check_exists` (`local_storage.py` lines 240-268): a single
SELECT on `data_metadata` filtered by `symbol`, `timeframe` and `data_type`
followed by `fetchone()`.  The `start_date`/`end_date` parameters appear in
the Python signature but are never used.  Returns the stored
`(start_timestamp, end_timestamp)` pair, or `none` when no metadata row
matches (the Python `(False, None, None)`). -/
def LocalStorage.checkExists (st : LSState) (symbol timeframe : String)
    (startDate endDate : Int) (dataType : String) : Option (Int × Int) :=
  match st.metadata.find? (fun r =>
      r.symbol == symbol && r.timeframe == timeframe && r.dataType == dataType) with
  | none => none
  | some r => some (r.startTs, r.endTs)

/-- Insert a row into a timestamp-sorted list, keeping it sorted.  Models
the `ORDER BY timestamp` of `LocalStorage.load`. -/
def insertSorted (r : LSBarRow) : List LSBarRow → List LSBarRow
  | [] => [r]
  | x :: xs => if r.ts ≤ x.ts then r :: x :: xs else x :: insertSorted r xs

/-- Sort rows by timestamp (`ORDER BY timestamp`). -/
def sortByTs (l : List LSBarRow) : List LSBarRow :=
  l.foldr insertSorted []

/-- `LocalStorage.load` for `data_type='bars'` (`local_storage.py` lines
195-238): SELECT rows with matching symbol and timeframe whose timestamp
lies in `[start_date, end_date]`, ordered by timestamp. -/
def LocalStorage.loadBars (st : LSState) (symbol timeframe : String)
    (startDate endDate : Int) : List LSBarRow :=
  sortByTs (st.bars.filter (fun r =>
    r.symbol == symbol && r.timeframe == timeframe &&
    decide (startDate ≤ r.ts) && decide (r.ts ≤ endDate)))

/-- `LocalStorage.delete_data` for `data_type='bars'` (`local_storage.py`
lines 305-335): DELETE from `bars_data` by `(symbol, timeframe)` and from
`data_metadata` by `(symbol, timeframe, data_type)`, then return `True`. -/
def LocalStorage.deleteBars (symbol timeframe : String) (dataType : String)
    (st : LSState) : Bool × LSState :=
  (true,
   { bars := st.bars.filter (fun r => !(r.symbol == symbol && r.timeframe == timeframe)),
     metadata := st.metadata.filter (fun r =>
       !(r.symbol == symbol && r.timeframe == timeframe && r.dataType == dataType)) })

/-- `BaseStorage.get_missing_ranges` (`base_storage.py` lines 113-147),
instantiated with `LocalStorage.check_exists`: when no coverage exists the
whole requested range is missing; otherwise a leading gap
`(requested_start, actual_start)` is emitted when `requested_start <
actual_start` and a trailing gap `(actual_end, requested_end)` when
`requested_end > actual_end`.  No timeframe-duration adjustment and no
freshness test appear anywhere in the function. -/
def getMissingRanges (st : LSState) (symbol timeframe : String)
    (requestedStart requestedEnd : Int) (dataType : String) : List (Int × Int) :=
  match LocalStorage.checkExists st symbol timeframe requestedStart requestedEnd dataType with
  | none => [(requestedStart, requestedEnd)]
  | some (actualStart, actualEnd) =>
    (if requestedStart < actualStart then [(requestedStart, actualStart)] else []) ++
    (if requestedEnd > actualEnd then [(actualEnd, requestedEnd)] else [])

/-! ### Claims C9, C4, C3: coverage queries and gap resolution -/

/-- C9: for a fixed stored state and `(symbol, timeframe, data_type)` key,
`LocalStorage.check_exists` returns the same answer for any two requested
date ranges: the result is derived solely from the stored metadata row. -/
theorem checkExists_range_independent (st : LSState) (symbol timeframe dataType : String)
    (s1 e1 s2 e2 : Int) :
    LocalStorage.checkExists st symbol timeframe s1 e1 dataType =
      LocalStorage.checkExists st symbol timeframe s2 e2 dataType := rfl

/-- Stored state with coverage `[2000, 3000]` for `BTCUSDT`/`1s` bars. -/
def covState2000 : LSState :=
  { bars := [],
    metadata := [{ symbol := "BTCUSDT", timeframe := "1s", dataType := "bars",
                   source := "binance", startTs := 2000, endTs := 3000, recordCount := 2 }] }

/-- C4 counterexample: with coverage `[2000, 3000]` (duration 1000 would
give adjusted end 3999) and request `[1000, 5000]`, the code does **not**
return `[[1000, 2000), [3999, 5000]]`: no duration adjustment is applied
anywhere in `get_missing_ranges`. -/
theorem missing_ranges_not_duration_adjusted :
    getMissingRanges covState2000 "BTCUSDT" "1s" 1000 5000 "bars" ≠
      [(1000, 2000), (3999, 5000)] := by decide

/-- C4 amended: the resolver uses `coverage.latest_timestamp` unadjusted;
coverage `[2000, 3000]`, request `[1000, 5000]` yields the two missing
ranges `[(1000, 2000), (3000, 5000)]`. -/
theorem missing_ranges_two_sided_values :
    getMissingRanges covState2000 "BTCUSDT" "1s" 1000 5000 "bars" =
      [(1000, 2000), (3000, 5000)] := by decide

/-- Stored state whose `1m` coverage ends 500 ms before "now"
(now = 1 000 000 in this instance). -/
def freshCovState : LSState :=
  { bars := [],
    metadata := [{ symbol := "BTCUSDT", timeframe := "1m", dataType := "bars",
                   source := "binance", startTs := 0, endTs := 999500, recordCount := 17 }] }

/-- C3 counterexample: coverage ending at `now - 500` (here `now =
1000000`) with a 1-minute timeframe and a request ending at `now` is
**not** classified FULL: the code reports the trailing sub-range
`(999500, 1000000)` as missing and would re-fetch it.  Neither the current
time nor the timeframe duration is consulted. -/
theorem no_freshness_exception :
    getMissingRanges freshCovState "BTCUSDT" "1m" 0 1000000 "bars" =
      [(999500, 1000000)] ∧
    getMissingRanges freshCovState "BTCUSDT" "1m" 0 1000000 "bars" ≠ [] := by decide

/-- C3 amended: there is no freshness exception.  Whenever coverage exists
and the requested end exceeds the stored `end_timestamp`, the trailing gap
`(actual_end, requested_end)` is always reported missing — regardless of
how close the coverage end is to the current time — so the request is
never treated as fully covered. -/
theorem trailing_gap_always_reported (st : LSState) (symbol timeframe dataType : String)
    (rs re as ae : Int)
    (hcov : LocalStorage.checkExists st symbol timeframe rs re dataType = some (as, ae))
    (hre : re > ae) :
    getMissingRanges st symbol timeframe rs re dataType =
      (if rs < as then [(rs, as)] else []) ++ [(ae, re)] ∧
    getMissingRanges st symbol timeframe rs re dataType ≠ [] := by
  unfold getMissingRanges
  rw [hcov]
  refine ⟨by simp [hre], ?_⟩
  simp only [if_pos hre]
  intro h
  rcases List.append_eq_nil.mp h with ⟨-, h2⟩
  exact List.cons_ne_nil _ _ h2

/-- C3 witness: instantiating `trailing_gap_always_reported` on the
concrete freshness scenario. -/
theorem trailing_gap_always_reported_witness :
    getMissingRanges freshCovState "BTCUSDT" "1m" 0 1000000 "bars" =
      (if (0 : Int) < 0 then [((0 : Int), (0 : Int))] else []) ++ [(999500, 1000000)] ∧
    getMissingRanges freshCovState "BTCUSDT" "1m" 0 1000000 "bars" ≠ [] :=
  trailing_gap_always_reported freshCovState "BTCUSDT" "1m" "bars" 0 1000000 0 999500
    (by decide) (by decide)

/-! ### Claim C10: shape of the missing-range list -/

/-- C10: `get_missing_ranges` returns at most two ranges; when coverage
exists and two ranges come back they are exactly
`(requested_start, actual_start)` followed by `(actual_end, requested_end)`
with `requested_start < actual_start` and `actual_end < requested_end`, and
whenever the stored metadata satisfies `actual_start ≤ actual_end` the two
open intervals are disjoint and listed in ascending order. -/
theorem missing_ranges_structure (st : LSState) (symbol timeframe dataType : String)
    (rs re : Int) :
    (getMissingRanges st symbol timeframe rs re dataType).length ≤ 2 ∧
    (∀ as ae, LocalStorage.checkExists st symbol timeframe rs re dataType = some (as, ae) →
      (getMissingRanges st symbol timeframe rs re dataType).length = 2 →
      getMissingRanges st symbol timeframe rs re dataType = [(rs, as), (ae, re)] ∧
      rs < as ∧ ae < re ∧
      (as ≤ ae → ∀ x : Int, ¬ ((rs < x ∧ x < as) ∧ (ae < x ∧ x < re)))) := by
  constructor
  · unfold getMissingRanges
    cases h : LocalStorage.checkExists st symbol timeframe rs re dataType with
    | none => simp
    | some p =>
      obtain ⟨as, ae⟩ := p
      by_cases h1 : rs < as <;> by_cases h2 : re > ae <;> simp [h1, h2]
  · intro as ae hcov hlen
    unfold getMissingRanges at hlen ⊢
    rw [hcov] at hlen ⊢
    by_cases h1 : rs < as <;> by_cases h2 : re > ae <;> simp [h1, h2] at hlen ⊢
    intro hle x hxa hxb hxc
    omega

/-- C10 witness: instantiating `missing_ranges_structure` on the concrete
two-sided-gap state, discharging the coverage and length hypotheses. -/
theorem missing_ranges_structure_witness :
    getMissingRanges covState2000 "BTCUSDT" "1s" 1000 5000 "bars" = [(1000, 2000), (3000, 5000)] ∧
    (1000 : Int) < 2000 ∧ (3000 : Int) < 5000 ∧
    ((2000 : Int) ≤ 3000 → ∀ x : Int, ¬ ((1000 < x ∧ x < 2000) ∧ (3000 < x ∧ x < 5000))) :=
  (missing_ranges_structure covState2000 "BTCUSDT" "1s" "bars" 1000 5000).2
    2000 3000 (by decide) (by decide)

/-! ### Claim C7: delete removes bars and coverage -/

/-- C7: after `LocalStorage.delete_data(symbol, timeframe)` (bars), the
call reports success, `load` returns the empty sequence for every requested
range, and `check_exists` reports the coverage as absent; this holds for
every prior state, including one that had no data for the key (delete of a
non-existent key is still a success). -/
theorem delete_then_reads_empty (st : LSState) (symbol timeframe : String)
    (startDate endDate : Int) :
    (LocalStorage.deleteBars symbol timeframe "bars" st).1 = true ∧
    LocalStorage.loadBars (LocalStorage.deleteBars symbol timeframe "bars" st).2
      symbol timeframe startDate endDate = [] ∧
    LocalStorage.checkExists (LocalStorage.deleteBars symbol timeframe "bars" st).2
      symbol timeframe startDate endDate "bars" = none := by
  refine ⟨rfl, ?_, ?_⟩
  · unfold LocalStorage.loadBars LocalStorage.deleteBars
    have : (st.bars.filter (fun r => !(r.symbol == symbol && r.timeframe == timeframe))).filter
        (fun r => r.symbol == symbol && r.timeframe == timeframe &&
          decide (startDate ≤ r.ts) && decide (r.ts ≤ endDate)) = [] := by
      rw [List.filter_filter]
      apply List.filter_eq_nil.mpr
      intro r _
      by_cases hs : r.symbol == symbol && r.timeframe == timeframe <;> simp [hs]
    rw [this]
    rfl
  · unfold LocalStorage.checkExists LocalStorage.deleteBars
    have : (st.metadata.filter (fun r =>
        !(r.symbol == symbol && r.timeframe == timeframe && r.dataType == "bars"))).find?
        (fun r => r.symbol == symbol && r.timeframe == timeframe && r.dataType == "bars") = none := by
      apply List.find?_eq_none.mpr
      intro r hr
      have := (List.mem_filter.mp hr).2
      by_cases hs : r.symbol == symbol && r.timeframe == timeframe && r.dataType == "bars"
      · simp [hs] at this
      · exact fun h => absurd h (by simpa using hs)
    simp only [this]

/-! ### The SQLite (`LocalDataManager`) and Cloud SQL (`CloudDataManager`)
backends of `binance_data_framework` -/

/-- A row of the `ohlcv_data` table of `database_handler.py` /
`cloud_storage.py` (primary key `(timestamp, symbol, timeframe)`). -/
structure DBBarRow where
  ts : Int
  symbol : String
  timeframe : String
  o : Rat
  hi : Rat
  lo : Rat
  c : Rat
  v : Rat
deriving DecidableEq, Repr

/-- A row of the `metadata` table (primary key `(symbol, timeframe)`);
`last_update` (wall clock) is omitted. -/
structure DBMetaRow where
  symbol : String
  timeframe : String
  startDate : Int
  endDate : Int
deriving DecidableEq, Repr

/-- The persistent state of a `binance_data_framework` database. -/
structure DBState where
  ohlcv : List DBBarRow
  metadata : List DBMetaRow
deriving DecidableEq, Repr

/-- The empty database (freshly created tables). -/
def DBState.empty : DBState := { ohlcv := [], metadata := [] }

/-- Tag incoming bars with symbol/timeframe, as `save_data` does
(`df_copy['symbol'] = symbol; df_copy['timeframe'] = timeframe`). -/
def tagDBRows (df : List RBar) (symbol timeframe : String) : List DBBarRow :=
  df.map (fun b =>
    { ts := b.ts, symbol := symbol, timeframe := timeframe,
      o := b.o, hi := b.hi, lo := b.lo, c := b.c, v := b.v })

/-- First row of `ohlcv_data` with the given primary key. -/
def findBar (table : List DBBarRow) (ts : Int) (symbol timeframe : String) :
    Option DBBarRow :=
  table.find? (fun r => r.ts == ts && r.symbol == symbol && r.timeframe == timeframe)

/-- `INSERT OR IGNORE` (SQLite) / `INSERT IGNORE` (MySQL) of one row: the
row is appended unless a row with the same primary key already exists. -/
def insertIgnore (table : List DBBarRow) (row : DBBarRow) : List DBBarRow :=
  if (findBar table row.ts row.symbol row.timeframe).isSome then table
  else table ++ [row]

/-- The metadata lookup
`SELECT start_date, end_date FROM metadata WHERE symbol = ? AND timeframe = ?`. -/
def findMeta (l : List DBMetaRow) (symbol timeframe : String) : Option DBMetaRow :=
  l.find? (fun r => r.symbol == symbol && r.timeframe == timeframe)

/-- The metadata upsert of `save_data` (`database_handler.py` lines
234-256, `cloud_storage.py` lines 230-252): when a row for
`(symbol, timeframe)` exists its envelope is widened to
`(min(existing_start, min_ts), max(existing_end, max_ts))`, otherwise a
fresh row `(min_ts, max_ts)` is inserted. -/
def widenMeta (l : List DBMetaRow) (symbol timeframe : String) (mn mx : Int) :
    List DBMetaRow :=
  match findMeta l symbol timeframe with
  | some _ => l.map (fun r =>
      if r.symbol == symbol && r.timeframe == timeframe then
        { r with startDate := min r.startDate mn, endDate := max r.endDate mx }
      else r)
  | none => l ++ [{ symbol := symbol, timeframe := timeframe, startDate := mn, endDate := mx }]

/-- `LocalDataManager.save_data` (`database_handler.py` lines 183-292).
An empty DataFrame returns `False` immediately.  Otherwise the rows are
appended with `to_sql(..., if_exists='append')`; when any incoming primary
key `(timestamp, symbol, timeframe)` collides — with an existing row or
within the frame itself — SQLite raises `IntegrityError`, the transaction
is rolled back and the rows are re-inserted one by one with
`INSERT OR IGNORE` (existing rows win); in that fallback path the metadata
update is never executed (it sits after the failed `to_sql` call and is
rolled back).  In the conflict-free path the metadata envelope is widened
with the frame's min/max timestamps.  Both paths return `True`. -/
def LocalDataManager.saveData (df : List RBar) (symbol timeframe : String)
    (st : DBState) : Bool × DBState :=
  match df with
  | [] => (false, st)
  | b :: bs =>
    let rows := tagDBRows (b :: bs) symbol timeframe
    let conflict := rows.any (fun row =>
        (findBar st.ohlcv row.ts row.symbol row.timeframe).isSome) ||
      !(((b :: bs).map (fun x => x.ts)).Nodup : Bool)
    if conflict then
      (true, { st with ohlcv := rows.foldl insertIgnore st.ohlcv })
    else
      (true, { ohlcv := st.ohlcv ++ rows,
               metadata := widenMeta st.metadata symbol timeframe (minTs b bs) (maxTs b bs) })

/-- `CloudDataManager.save_data` (`cloud_storage.py` lines 170-261).  An
empty DataFrame returns `False` immediately.  Otherwise every row is
inserted through a temporary table with `INSERT IGNORE` (rows whose primary
key already exists are skipped, existing rows win), after which the
metadata envelope is always widened with the frame's min/max timestamps,
and the call returns `True`. -/
def CloudDataManager.saveData (df : List RBar) (symbol timeframe : String)
    (st : DBState) : Bool × DBState :=
  match df with
  | [] => (false, st)
  | b :: bs =>
    let rows := tagDBRows (b :: bs) symbol timeframe
    (true, { ohlcv := rows.foldl insertIgnore st.ohlcv,
             metadata := widenMeta st.metadata symbol timeframe (minTs b bs) (maxTs b bs) })

/-! ### Claim C5: merging an empty sequence -/

/-- C5 counterexample: `LocalDataManager.save_data` on an empty DataFrame
returns `False` — a failure result, not a no-op success (and
`CloudDataManager.save_data` behaves the same way). -/
theorem sqlite_empty_save_returns_false :
    (LocalDataManager.saveData [] "BTCUSDT" "1h" DBState.empty).1 = false ∧
    (CloudDataManager.saveData [] "BTCUSDT" "1h" DBState.empty).1 = false := by
  exact ⟨rfl, rfl⟩

/-- C5 amended: an empty input never changes any stored state, but the
reported outcome differs per backend: `LocalStorage.save` returns success
(`True`) while `LocalDataManager.save_data` and `CloudDataManager.save_data`
report failure (`False`). -/
theorem empty_save_behavior (lst : LSState) (dst : DBState)
    (symbol timeframe source : String) :
    LocalStorage.saveBars [] symbol timeframe source lst = (true, lst) ∧
    LocalDataManager.saveData [] symbol timeframe dst = (false, dst) ∧
    CloudDataManager.saveData [] symbol timeframe dst = (false, dst) :=
  ⟨rfl, rfl, rfl⟩

/-! ### Claim C2: coverage-envelope monotonicity -/


/-- `find?` after the key-preserving metadata update of `widenMeta`:
the first matching row of the mapped table is the updated first matching
row of the original table. -/
theorem find?_map_update (l : List DBMetaRow) (symbol timeframe : String) (mn mx : Int) :
    (l.map (fun r => if r.symbol == symbol && r.timeframe == timeframe then
        { r with startDate := min r.startDate mn, endDate := max r.endDate mx } else r)).find?
      (fun r => r.symbol == symbol && r.timeframe == timeframe) =
      (l.find? (fun r => r.symbol == symbol && r.timeframe == timeframe)).map
        (fun r => { r with startDate := min r.startDate mn, endDate := max r.endDate mx }) := by
  induction l with
  | nil => rfl
  | cons a l ih =>
    rw [List.map_cons]
    cases ha : (a.symbol == symbol && a.timeframe == timeframe) with
    | true =>
      rw [if_pos rfl]
      simp [List.find?_cons, ha]
    | false =>
      rw [if_neg (by simp : ¬ (false = true))]
      simpa [List.find?_cons, ha] using ih

/-- C2: a merge that returns success never narrows the stored coverage
envelope.  For `LocalStorage.save` this holds because the only saves that
return success are empty no-ops (a non-empty save fails on the positionally
mismatched insert before `_update_metadata` runs), so the coverage read is
unchanged.  For the two `binance_data_framework` backends a successful
`save_data` widens or preserves the envelope: `LocalDataManager` widens it
with min/max in the conflict-free path and leaves it untouched in the
`INSERT OR IGNORE` fallback; `CloudDataManager` always widens. -/
theorem metadata_envelope_monotone :
    (∀ (st : LSState) (symbol timeframe source dataType : String) (df : List RBar)
       (st1 : LSState) (sd ed : Int),
      LocalStorage.saveBars df symbol timeframe source st = (true, st1) →
      LocalStorage.checkExists st1 symbol timeframe sd ed dataType =
        LocalStorage.checkExists st symbol timeframe sd ed dataType) ∧
    (∀ (st : DBState) (symbol timeframe : String) (df : List RBar) (st1 : DBState)
       (r0 r1 : DBMetaRow),
      LocalDataManager.saveData df symbol timeframe st = (true, st1) →
      findMeta st.metadata symbol timeframe = some r0 →
      findMeta st1.metadata symbol timeframe = some r1 →
      r1.startDate ≤ r0.startDate ∧ r0.endDate ≤ r1.endDate) ∧
    (∀ (st : DBState) (symbol timeframe : String) (df : List RBar) (st1 : DBState)
       (r0 r1 : DBMetaRow),
      CloudDataManager.saveData df symbol timeframe st = (true, st1) →
      findMeta st.metadata symbol timeframe = some r0 →
      findMeta st1.metadata symbol timeframe = some r1 →
      r1.startDate ≤ r0.startDate ∧ r0.endDate ≤ r1.endDate) := by
  refine ⟨?_, ?_, ?_⟩
  · intro st symbol timeframe source dataType df st1 sd ed hsave
    match df with
    | [] =>
      simp only [LocalStorage.saveBars] at hsave
      injection hsave with hA hB
      rw [← hB]
    | _ :: _ =>
      simp only [LocalStorage.saveBars] at hsave
      injection hsave with hA hB
      exact absurd hA (by simp)
  · intro st symbol timeframe df st1 r0 r1 hsave h0 h1
    match df with
    | [] => simp [LocalDataManager.saveData] at hsave
    | b :: bs =>
      simp only [LocalDataManager.saveData] at hsave
      split at hsave
      · injection hsave with hA hB
        subst hB
        unfold findMeta at h0 h1
        simp only at h1
        rw [h0] at h1
        injection h1 with h1
        subst h1
        exact ⟨le_refl _, le_refl _⟩
      · injection hsave with hA hB
        subst hB
        unfold findMeta at h0 h1
        simp only [widenMeta, findMeta] at h1
        rw [h0, find?_map_update, h0] at h1
        injection h1 with h1
        subst h1
        exact ⟨min_le_left _ _, le_max_left _ _⟩
  · intro st symbol timeframe df st1 r0 r1 hsave h0 h1
    match df with
    | [] => simp [CloudDataManager.saveData] at hsave
    | b :: bs =>
      simp only [CloudDataManager.saveData] at hsave
      injection hsave with hA hB
      subst hB
      unfold findMeta at h0 h1
      simp only [widenMeta, findMeta] at h1
      rw [h0, find?_map_update, h0] at h1
      injection h1 with h1
      subst h1
      exact ⟨min_le_left _ _, le_max_left _ _⟩

/-- A `LocalStorage` state holding two `BTCUSDT`/`1h` bars (timestamps 0
and 1000) with coverage metadata `[0, 1000]`. -/
def lsTwoBarState : LSState :=
  { bars := [{ ts := 0, symbol := "BTCUSDT", timeframe := "1h", source := "binance",
               o := 1, hi := 1, lo := 1, c := 1, v := 1 },
             { ts := 1000, symbol := "BTCUSDT", timeframe := "1h", source := "binance",
               o := 2, hi := 2, lo := 2, c := 2, v := 2 }],
    metadata := [{ symbol := "BTCUSDT", timeframe := "1h", dataType := "bars",
                   source := "binance", startTs := 0, endTs := 1000, recordCount := 2 }] }

/-- A `binance_data_framework` database with coverage `[100, 200]` for
`BTCUSDT`/`1h` and an empty bar table. -/
def dbMetaOnlyState : DBState :=
  { ohlcv := [],
    metadata := [{ symbol := "BTCUSDT", timeframe := "1h", startDate := 100, endDate := 200 }] }

/-- C2 witness: instantiating `metadata_envelope_monotone` on concrete
merges — the empty (successful) `LocalStorage` save leaves the coverage
read unchanged, and both database managers widen coverage `[100, 200]` to
`[50, 200]` when merging the bar at timestamp 50. -/
theorem metadata_envelope_monotone_witness :
    LocalStorage.checkExists lsTwoBarState "BTCUSDT" "1h" 0 0 "bars" =
      LocalStorage.checkExists lsTwoBarState "BTCUSDT" "1h" 0 0 "bars" ∧
    ((50 : Int) ≤ 100 ∧ (200 : Int) ≤ 200) ∧ ((50 : Int) ≤ 100 ∧ (200 : Int) ≤ 200) :=
  ⟨metadata_envelope_monotone.1 lsTwoBarState "BTCUSDT" "1h" "binance" "bars" []
      lsTwoBarState 0 0 rfl,
   metadata_envelope_monotone.2.1 dbMetaOnlyState "BTCUSDT" "1h"
      [{ ts := 50, o := 1, hi := 1, lo := 1, c := 1, v := 1 }]
      { ohlcv := [{ ts := 50, symbol := "BTCUSDT", timeframe := "1h",
                    o := 1, hi := 1, lo := 1, c := 1, v := 1 }],
        metadata := [{ symbol := "BTCUSDT", timeframe := "1h", startDate := 50, endDate := 200 }] }
      { symbol := "BTCUSDT", timeframe := "1h", startDate := 100, endDate := 200 }
      { symbol := "BTCUSDT", timeframe := "1h", startDate := 50, endDate := 200 }
      (by decide) (by decide) (by decide),
   metadata_envelope_monotone.2.2 dbMetaOnlyState "BTCUSDT" "1h"
      [{ ts := 50, o := 1, hi := 1, lo := 1, c := 1, v := 1 }]
      { ohlcv := [{ ts := 50, symbol := "BTCUSDT", timeframe := "1h",
                    o := 1, hi := 1, lo := 1, c := 1, v := 1 }],
        metadata := [{ symbol := "BTCUSDT", timeframe := "1h", startDate := 50, endDate := 200 }] }
      { symbol := "BTCUSDT", timeframe := "1h", startDate := 100, endDate := 200 }
      { symbol := "BTCUSDT", timeframe := "1h", startDate := 50, endDate := 200 }
      (by decide) (by decide) (by decide)⟩

/-! ### Claim C1: merge semantics of the three backends -/

/-- A sequence of `INSERT OR IGNORE` statements only ever appends rows. -/
theorem foldl_insertIgnore_prefix : ∀ (rows t : List DBBarRow),
    ∃ extra, rows.foldl insertIgnore t = t ++ extra
  | [], t => ⟨[], by simp⟩
  | r :: rows, t => by
    rw [List.foldl_cons]
    by_cases h : (findBar t r.ts r.symbol r.timeframe).isSome
    · have he : insertIgnore t r = t := by simp [insertIgnore, h]
      rw [he]
      exact foldl_insertIgnore_prefix rows t
    · have he : insertIgnore t r = t ++ [r] := by simp [insertIgnore, h]
      rw [he]
      obtain ⟨e, hr⟩ := foldl_insertIgnore_prefix rows (t ++ [r])
      exact ⟨[r] ++ e, by rw [hr, List.append_assoc]⟩

/-- Appending rows never changes the result of a successful key lookup. -/
theorem findBar_append_of_isSome (l extra : List DBBarRow) (ts : Int) (sym tf : String)
    (h : (findBar l ts sym tf).isSome) :
    findBar (l ++ extra) ts sym tf = findBar l ts sym tf := by
  unfold findBar at h ⊢
  rw [List.find?_append]
  cases hf : l.find? (fun r => r.ts == ts && r.symbol == sym && r.timeframe == tf) with
  | none => rw [hf] at h; simp at h
  | some r => rfl

/-- C1 (amended): what the three merge implementations actually do.

* `LocalStorage.save` on a non-empty frame is **not** an upsert and never
  succeeds: the whole `(symbol, timeframe, source)` partition is deleted,
  the positionally mismatched insert then fails, and the call returns
  `False` — afterwards no row of the key remains (in particular none of
  the incoming bars is stored), rows under other keys are untouched, and
  the metadata table is unchanged.
* `LocalDataManager.save_data` (and `CloudDataManager.save_data`) never
  modifies or removes an existing row: all prior rows survive verbatim and
  a key lookup that succeeded before the merge returns the same row after
  it (first-write-wins via `INSERT OR IGNORE` / `INSERT IGNORE`), while the
  call still reports success. -/
theorem save_merge_semantics :
    (∀ (st : LSState) (symbol timeframe source : String) (b : RBar) (bs : List RBar),
      (LocalStorage.saveBars (b :: bs) symbol timeframe source st).1 = false ∧
      (∀ r : LSBarRow,
        r ∈ (LocalStorage.saveBars (b :: bs) symbol timeframe source st).2.bars ↔
          (r ∈ st.bars ∧ r.keyMatch symbol timeframe source = false)) ∧
      (LocalStorage.saveBars (b :: bs) symbol timeframe source st).2.metadata =
        st.metadata) ∧
    (∀ (st : DBState) (symbol timeframe : String) (b : RBar) (bs : List RBar),
      (LocalDataManager.saveData (b :: bs) symbol timeframe st).1 = true ∧
      (∀ r ∈ st.ohlcv, r ∈ (LocalDataManager.saveData (b :: bs) symbol timeframe st).2.ohlcv) ∧
      (∀ ts sym tf, (findBar st.ohlcv ts sym tf).isSome →
        findBar (LocalDataManager.saveData (b :: bs) symbol timeframe st).2.ohlcv ts sym tf =
          findBar st.ohlcv ts sym tf)) ∧
    (∀ (st : DBState) (symbol timeframe : String) (b : RBar) (bs : List RBar),
      (CloudDataManager.saveData (b :: bs) symbol timeframe st).1 = true ∧
      (∀ r ∈ st.ohlcv, r ∈ (CloudDataManager.saveData (b :: bs) symbol timeframe st).2.ohlcv) ∧
      (∀ ts sym tf, (findBar st.ohlcv ts sym tf).isSome →
        findBar (CloudDataManager.saveData (b :: bs) symbol timeframe st).2.ohlcv ts sym tf =
          findBar st.ohlcv ts sym tf)) := by
  refine ⟨?_, ?_, ?_⟩
  · intro st symbol timeframe source b bs
    refine ⟨rfl, ?_, rfl⟩
    intro r
    simp only [LocalStorage.saveBars]
    rw [List.mem_filter]
    simp [Bool.not_eq_true']
  · intro st symbol timeframe b bs
    have hsplit : (LocalDataManager.saveData (b :: bs) symbol timeframe st).1 = true ∧
        ∃ extra, (LocalDataManager.saveData (b :: bs) symbol timeframe st).2.ohlcv =
          st.ohlcv ++ extra := by
      simp only [LocalDataManager.saveData]
      split
      · exact ⟨rfl, foldl_insertIgnore_prefix _ _⟩
      · exact ⟨rfl, _, rfl⟩
    obtain ⟨h1, extra, h2⟩ := hsplit
    refine ⟨h1, ?_, ?_⟩
    · intro r hr
      rw [h2]
      exact List.mem_append.mpr (Or.inl hr)
    · intro ts sym tf hsome
      rw [h2]
      exact findBar_append_of_isSome _ _ _ _ _ hsome
  · intro st symbol timeframe b bs
    have h2 : ∃ extra, (CloudDataManager.saveData (b :: bs) symbol timeframe st).2.ohlcv =
        st.ohlcv ++ extra := foldl_insertIgnore_prefix _ _
    obtain ⟨extra, h2⟩ := h2
    refine ⟨rfl, ?_, ?_⟩
    · intro r hr
      rw [h2]
      exact List.mem_append.mpr (Or.inl hr)
    · intro ts sym tf hsome
      rw [h2]
      exact findBar_append_of_isSome _ _ _ _ _ hsome

/-- The incoming bar at timestamp 500 used to exercise the merge paths. -/
def barAt500 : RBar := { ts := 500, o := 3, hi := 3, lo := 3, c := 3, v := 3 }

/-- The stored `BTCUSDT`/`1h` row at timestamp 0 of `lsTwoBarState`. -/
def lsRowAt0 : LSBarRow :=
  { ts := 0, symbol := "BTCUSDT", timeframe := "1h", source := "binance",
    o := 1, hi := 1, lo := 1, c := 1, v := 1 }

/-- A `binance_data_framework` database holding one `BTCUSDT`/`1h` bar at
timestamp 0 with open price 1. -/
def dbOneBarState : DBState :=
  { ohlcv := [{ ts := 0, symbol := "BTCUSDT", timeframe := "1h",
                o := 1, hi := 1, lo := 1, c := 1, v := 1 }],
    metadata := [{ symbol := "BTCUSDT", timeframe := "1h", startDate := 0, endDate := 0 }] }

/-- C1 counterexample: the merge is not a per-bar last-write-wins upsert.

* `LocalStorage.save`: merging the single bar at timestamp 500 into a state
  holding bars at 0 and 1000 returns `False` and leaves the partition
  empty — the incoming bar is never stored, and the stored bars, whose
  timestamps do not occur in the incoming frame, do **not** remain.
* `LocalDataManager.save_data`: merging a bar whose key already exists
  keeps the old row (open price 1) and discards the incoming values (open
  price 9) — first-write-wins, not last-write-wins — while reporting
  success. -/
theorem save_not_upsert_counterexample :
    (LocalStorage.saveBars [barAt500] "BTCUSDT" "1h" "binance" lsTwoBarState).1 = false ∧
    (LocalStorage.saveBars [barAt500] "BTCUSDT" "1h" "binance" lsTwoBarState).2.bars = [] ∧
    lsRowAt0 ∉ (LocalStorage.saveBars [barAt500] "BTCUSDT" "1h" "binance" lsTwoBarState).2.bars ∧
    (LocalDataManager.saveData [{ ts := 0, o := 9, hi := 9, lo := 9, c := 9, v := 9 }]
      "BTCUSDT" "1h" dbOneBarState).1 = true ∧
    (LocalDataManager.saveData [{ ts := 0, o := 9, hi := 9, lo := 9, c := 9, v := 9 }]
      "BTCUSDT" "1h" dbOneBarState).2.ohlcv =
      [{ ts := 0, symbol := "BTCUSDT", timeframe := "1h",
         o := 1, hi := 1, lo := 1, c := 1, v := 1 }] := by
  refine ⟨by decide, by decide, by decide, by decide, by decide⟩

/-- C1 witness: instantiating `save_merge_semantics` on concrete states —
the non-empty `LocalStorage` save fails with the partition emptied (so the
bar at timestamp 0 satisfies the membership characterisation), while the
pre-existing SQLite row survives a conflicting merge. -/
theorem save_merge_semantics_witness :
    (LocalStorage.saveBars [barAt500] "BTCUSDT" "1h" "binance" lsTwoBarState).1 = false ∧
    (lsRowAt0 ∈ (LocalStorage.saveBars [barAt500] "BTCUSDT" "1h" "binance" lsTwoBarState).2.bars ↔
      (lsRowAt0 ∈ lsTwoBarState.bars ∧ lsRowAt0.keyMatch "BTCUSDT" "1h" "binance" = false)) ∧
    ({ ts := 0, symbol := "BTCUSDT", timeframe := "1h",
       o := 1, hi := 1, lo := 1, c := 1, v := 1 } : DBBarRow) ∈
      (LocalDataManager.saveData [{ ts := 0, o := 9, hi := 9, lo := 9, c := 9, v := 9 }]
        "BTCUSDT" "1h" dbOneBarState).2.ohlcv :=
  ⟨(save_merge_semantics.1 lsTwoBarState "BTCUSDT" "1h" "binance" barAt500 []).1,
   (save_merge_semantics.1 lsTwoBarState "BTCUSDT" "1h" "binance" barAt500 []).2.1 lsRowAt0,
   (save_merge_semantics.2.1 dbOneBarState "BTCUSDT" "1h"
     { ts := 0, o := 9, hi := 9, lo := 9, c := 9, v := 9 } []).2.1
     { ts := 0, symbol := "BTCUSDT", timeframe := "1h",
       o := 1, hi := 1, lo := 1, c := 1, v := 1 } (by decide)⟩

/-! ### Claim C8: resampling (`DataDownloaderUI._get_resampled_data`,
`colab_interface.py` lines 416-430) -/

/-- The bucket label `floor(timestamp / target_bucket_ms) * target_bucket_ms`
that pandas assigns to a bar when resampling with a fixed frequency
(left-closed, left-labelled buckets). -/
def bucketOf (bucket ts : Int) : Int := (Int.fdiv ts bucket) * bucket

/-- The distinct bucket labels of the input, first occurrence first (for a
time-sorted input this is chronological order, as pandas emits them). -/
def dedupKeys : List Int → List Int
  | [] => []
  | k :: ks => k :: dedupKeys (ks.filter (fun y => y != k))
termination_by l => l.length
decreasing_by simp only [List.length_cons]; exact Nat.lt_succ_of_le (List.length_filter_le _ _)

/-- The input bars falling into the bucket labelled `k`. -/
def groupFor (bucket : Int) (bars : List RBar) (k : Int) : List RBar :=
  bars.filter (fun x => bucketOf bucket x.ts == k)

/-- The positionally last bar of a non-empty group (pandas `.last()` on a
sorted index). -/
def lastOf : RBar → List RBar → RBar
  | b, [] => b
  | _, x :: xs => lastOf x xs

/-- Aggregate one bucket the way the pandas calls in
`_get_resampled_data` do: `open` = `.first()`, `high` = `.max()`,
`low` = `.min()`, `close` = `.last()`, `volume` = `.sum()`.  An empty
bucket produces NaN rows that `dropna` removes, modelled by `none`. -/
def aggBucket (k : Int) : List RBar → Option RBar
  | [] => none
  | b :: bs => some
      { ts := k,
        o := b.o,
        hi := (bs.map (fun x => x.hi)).foldl max b.hi,
        lo := (bs.map (fun x => x.lo)).foldl min b.lo,
        c := (lastOf b bs).c,
        v := (bs.map (fun x => x.v)).foldl (fun a y => a + y) b.v }

/-- The resampler of `_get_resampled_data` (`colab_interface.py` lines
416-430): group the input by left-closed bucket, aggregate each bucket,
and drop buckets without contributing input rows (`dropna`). -/
def resampleBars (bucket : Int) (bars : List RBar) : List RBar :=
  (dedupKeys (bars.map (fun x => bucketOf bucket x.ts))).filterMap
    (fun k => aggBucket k (groupFor bucket bars k))

/-- `dedupKeys` preserves membership. -/
theorem mem_dedupKeys (x : Int) : ∀ (l : List Int), x ∈ dedupKeys l ↔ x ∈ l
  | [] => by simp [dedupKeys]
  | k :: ks => by
    rw [dedupKeys]
    simp only [List.mem_cons]
    constructor
    · rintro (rfl | h)
      · exact Or.inl rfl
      · exact Or.inr (List.mem_filter.mp ((mem_dedupKeys x _).mp h)).1
    · rintro (rfl | h)
      · exact Or.inl rfl
      · by_cases hxk : x = k
        · exact Or.inl hxk
        · exact Or.inr ((mem_dedupKeys x _).mpr (List.mem_filter.mpr ⟨h, by simp [hxk]⟩))
termination_by l => l.length
decreasing_by all_goals
  simp only [List.length_cons]; exact Nat.lt_succ_of_le (List.length_filter_le _ _)

/-- The positionally last bar belongs to its group. -/
theorem lastOf_mem : ∀ (b : RBar) (bs : List RBar), lastOf b bs ∈ b :: bs
  | _, [] => List.mem_singleton.mpr rfl
  | b, x :: xs => List.mem_cons_of_mem b (lastOf_mem x xs)

/-- In a strictly time-sorted group the positionally last bar has the
latest timestamp. -/
theorem lastOf_ge (b : RBar) (bs : List RBar)
    (h : (b :: bs).Pairwise (fun x y => x.ts < y.ts)) :
    ∀ x ∈ b :: bs, x.ts ≤ (lastOf b bs).ts := by
  induction bs generalizing b with
  | nil =>
    intro x hx
    rw [List.mem_singleton.mp hx]
    exact le_refl _
  | cons y ys ih =>
    intro x hx
    have h2 : (y :: ys).Pairwise (fun x y => x.ts < y.ts) := h.of_cons
    rcases List.mem_cons.mp hx with rfl | hx
    · have hby : x.ts < y.ts := (List.pairwise_cons.mp h).1 y (List.mem_cons_self _ _)
      exact le_trans (le_of_lt hby) (ih y h2 y (List.mem_cons_self _ _))
    · exact ih y h2 x hx

/-- A left fold of `max` yields one of its inputs. -/
theorem foldlMax_mem (xs : List Rat) : ∀ x : Rat, xs.foldl max x = x ∨ xs.foldl max x ∈ xs := by
  induction xs with
  | nil => intro x; exact Or.inl rfl
  | cons a as ih =>
    intro x
    rw [List.foldl_cons]
    rcases ih (max x a) with h | h
    · rcases max_choice x a with hm | hm
      · exact Or.inl (by rw [h, hm])
      · exact Or.inr (List.mem_cons.mpr (Or.inl (by rw [h, hm])))
    · exact Or.inr (List.mem_cons_of_mem _ h)

/-- A left fold of `max` bounds its seed and all its inputs from above. -/
theorem foldlMax_ge (xs : List Rat) : ∀ x : Rat,
    x ≤ xs.foldl max x ∧ ∀ y ∈ xs, y ≤ xs.foldl max x := by
  induction xs with
  | nil => intro x; exact ⟨le_refl _, by simp⟩
  | cons a as ih =>
    intro x
    obtain ⟨h1, h2⟩ := ih (max x a)
    rw [List.foldl_cons]
    refine ⟨le_trans (le_max_left x a) h1, ?_⟩
    intro y hy
    rcases List.mem_cons.mp hy with rfl | hy
    · exact le_trans (le_max_right x y) h1
    · exact h2 y hy

/-- A left fold of `min` yields one of its inputs. -/
theorem foldlMin_mem (xs : List Rat) : ∀ x : Rat, xs.foldl min x = x ∨ xs.foldl min x ∈ xs := by
  induction xs with
  | nil => intro x; exact Or.inl rfl
  | cons a as ih =>
    intro x
    rw [List.foldl_cons]
    rcases ih (min x a) with h | h
    · rcases min_choice x a with hm | hm
      · exact Or.inl (by rw [h, hm])
      · exact Or.inr (List.mem_cons.mpr (Or.inl (by rw [h, hm])))
    · exact Or.inr (List.mem_cons_of_mem _ h)

/-- A left fold of `min` bounds its seed and all its inputs from below. -/
theorem foldlMin_le (xs : List Rat) : ∀ x : Rat,
    xs.foldl min x ≤ x ∧ ∀ y ∈ xs, xs.foldl min x ≤ y := by
  induction xs with
  | nil => intro x; exact ⟨le_refl _, by simp⟩
  | cons a as ih =>
    intro x
    obtain ⟨h1, h2⟩ := ih (min x a)
    rw [List.foldl_cons]
    refine ⟨le_trans h1 (min_le_left x a), ?_⟩
    intro y hy
    rcases List.mem_cons.mp hy with rfl | hy
    · exact le_trans h1 (min_le_right x y)
    · exact h2 y hy

/-- A left fold of addition equals the seed plus the sum. -/
theorem foldlAdd_eq (xs : List Rat) : ∀ x : Rat,
    xs.foldl (fun a y => a + y) x = x + xs.sum := by
  induction xs with
  | nil => intro x; simp
  | cons a as ih =>
    intro x
    rw [List.foldl_cons, ih, List.sum_cons, add_assoc]

/-- C8: on a strictly time-sorted input, resampling emits exactly one
output bar per non-empty left-closed bucket (empty buckets are omitted),
whose `open` is the open of the earliest input bar of the bucket, `high`
the maximum high, `low` the minimum low, `close` the close of the latest
input bar of the bucket, and `volume` the sum of the bucket's volumes. -/
theorem resample_bucket_aggregation (bucket : Int) (bars : List RBar)
    (hs : bars.Pairwise (fun x y => x.ts < y.ts)) :
    (∀ k : Int, (∃ x ∈ bars, bucketOf bucket x.ts = k) ↔
      (∃ out ∈ resampleBars bucket bars, out.ts = k)) ∧
    (∀ out ∈ resampleBars bucket bars,
      (∃ bf ∈ groupFor bucket bars out.ts, out.o = bf.o ∧
        ∀ y ∈ groupFor bucket bars out.ts, bf.ts ≤ y.ts) ∧
      (∃ bl ∈ groupFor bucket bars out.ts, out.c = bl.c ∧
        ∀ y ∈ groupFor bucket bars out.ts, y.ts ≤ bl.ts) ∧
      out.hi ∈ (groupFor bucket bars out.ts).map (fun y => y.hi) ∧
      (∀ y ∈ groupFor bucket bars out.ts, y.hi ≤ out.hi) ∧
      out.lo ∈ (groupFor bucket bars out.ts).map (fun y => y.lo) ∧
      (∀ y ∈ groupFor bucket bars out.ts, out.lo ≤ y.lo) ∧
      out.v = ((groupFor bucket bars out.ts).map (fun y => y.v)).sum) := by
  constructor
  · intro k
    constructor
    · rintro ⟨x, hx, hbx⟩
      have hk : k ∈ dedupKeys (bars.map (fun y => bucketOf bucket y.ts)) :=
        (mem_dedupKeys _ _).mpr (List.mem_map.mpr ⟨x, hx, hbx⟩)
      have hxg : x ∈ groupFor bucket bars k :=
        List.mem_filter.mpr ⟨hx, by simp [hbx]⟩
      cases hg : groupFor bucket bars k with
      | nil => rw [hg] at hxg; exact absurd hxg (List.not_mem_nil x)
      | cons b bs =>
        refine ⟨(aggBucket k (b :: bs)).get (by simp [aggBucket]), ?_, ?_⟩
        · apply List.mem_filterMap.mpr
          refine ⟨k, hk, ?_⟩
          rw [hg]
          simp [aggBucket]
        · simp [aggBucket]
    · rintro ⟨out, hout, rfl⟩
      obtain ⟨k, hk, hagg⟩ := List.mem_filterMap.mp hout
      cases hg : groupFor bucket bars k with
      | nil => rw [hg] at hagg; simp [aggBucket] at hagg
      | cons b bs =>
        rw [hg] at hagg
        have hbk : b ∈ groupFor bucket bars k := by rw [hg]; exact List.mem_cons_self _ _
        obtain ⟨hb, hbq⟩ := List.mem_filter.mp hbk
        have hts : out.ts = k := by
          simp only [aggBucket] at hagg
          injection hagg with h
          rw [← h]
        exact ⟨b, hb, by rw [hts]; exact eq_of_beq hbq⟩
  · intro out hout
    obtain ⟨k, hk, hagg⟩ := List.mem_filterMap.mp hout
    cases hg : groupFor bucket bars k with
    | nil => rw [hg] at hagg; simp [aggBucket] at hagg
    | cons b bs =>
      rw [hg] at hagg
      simp only [aggBucket] at hagg
      injection hagg with hout2
      have hts : out.ts = k := by rw [← hout2]
      have hsg : (b :: bs).Pairwise (fun x y => x.ts < y.ts) := by
        rw [← hg]
        exact List.Pairwise.sublist (List.filter_sublist _) hs
      rw [hts, hg]
      constructor
      · refine ⟨b, List.mem_cons_self _ _, by rw [← hout2], ?_⟩
        intro y hy
        rcases List.mem_cons.mp hy with rfl | hy
        · exact le_refl _
        · exact le_of_lt ((List.pairwise_cons.mp hsg).1 y hy)
      constructor
      · exact ⟨lastOf b bs, lastOf_mem b bs, by rw [← hout2], lastOf_ge b bs hsg⟩
      constructor
      · rw [← hout2]
        rcases foldlMax_mem (bs.map (fun x => x.hi)) b.hi with h | h
        · simp only [List.map_cons]
          rw [h]
          exact List.mem_cons_self _ _
        · simp only [List.map_cons]
          exact List.mem_cons_of_mem _ h
      constructor
      · intro y hy
        rw [← hout2]
        obtain ⟨h1, h2⟩ := foldlMax_ge (bs.map (fun x => x.hi)) b.hi
        rcases List.mem_cons.mp hy with rfl | hy
        · exact h1
        · exact h2 y.hi (List.mem_map.mpr ⟨y, hy, rfl⟩)
      constructor
      · rw [← hout2]
        rcases foldlMin_mem (bs.map (fun x => x.lo)) b.lo with h | h
        · simp only [List.map_cons]
          rw [h]
          exact List.mem_cons_self _ _
        · simp only [List.map_cons]
          exact List.mem_cons_of_mem _ h
      constructor
      · intro y hy
        rw [← hout2]
        obtain ⟨h1, h2⟩ := foldlMin_le (bs.map (fun x => x.lo)) b.lo
        rcases List.mem_cons.mp hy with rfl | hy
        · exact h1
        · exact h2 y.lo (List.mem_map.mpr ⟨y, hy, rfl⟩)
      · rw [← hout2]
        simp only [List.map_cons, List.sum_cons]
        exact foldlAdd_eq (bs.map (fun x => x.v)) b.v

/-- Three 1-ms-timeframe bars: two in bucket 0, one in bucket 100. -/
def demoBars : List RBar :=
  [{ ts := 0, o := 10, hi := 12, lo := 9, c := 11, v := 5 },
   { ts := 50, o := 11, hi := 15, lo := 8, c := 14, v := 7 },
   { ts := 150, o := 14, hi := 16, lo := 13, c := 15, v := 2 }]

/-- C8 witness: applying `resample_bucket_aggregation` to a concrete
sorted input shows bucket 0 is emitted. -/
theorem resample_bucket_aggregation_witness :
    ∃ out ∈ resampleBars 100 demoBars, out.ts = 0 :=
  ((resample_bucket_aggregation 100 demoBars (by decide)).1 0).mp
    ⟨{ ts := 0, o := 10, hi := 12, lo := 9, c := 11, v := 5 }, by decide, by decide⟩

/-! ### Claim C6: request validation and the fetch orchestration
(`base_source.py` lines 130-159, `data_manager.py` lines 160-243)

`DataManager.fetch_data` is embedded for `data_type='bars'` and
`force_download=False`.  The tick-resampling branch, which is entered only
when the selected source is the Dukascopy one, is outside this embedding:
the instances below select a Binance-shaped source, for which that branch
is skipped. -/

/-- A data source as `DataManager` sees it: its registry name, the two
in-memory support predicates of `BaseSource`, and the external provider
download (`get_data`'s paginated API loop, an external collaborator). -/
structure SourceModel where
  name : String
  supportsSymbol : String → Bool
  supportsTimeframe : String → Bool
  providerBars : Int → Int → List RBar

/-- `BaseSource.validate_parameters` (`base_source.py` lines 130-159):
raises `ValueError` (modelled as `.error`) for an empty symbol, for
`start_date >= end_date`, for an unsupported symbol, and — when a truthy
timeframe is given — for an unsupported timeframe; otherwise returns
`True`. -/
def validateParameters (src : SourceModel) (symbol : String)
    (startDate endDate : Int) (timeframe : Option String) : Except String Bool :=
  if symbol == "" then .error "Symbol cannot be empty"
  else if startDate ≥ endDate then .error "Start date must be before end date"
  else if !(src.supportsSymbol symbol) then .error "Symbol not supported"
  else
    match timeframe with
    | some tf =>
      if tf != "" && !(src.supportsTimeframe tf) then .error "Timeframe not supported"
      else .ok true
    | none => .ok true

/-- A source's `get_data` (`dukascopy_source.py` line 112,
`binance_source.py` line 94): validate first, re-check the timeframe map,
then run the provider download. -/
def sourceGetData (src : SourceModel) (symbol : String) (startDate endDate : Int)
    (timeframe : String) : Except String (List RBar) :=
  match validateParameters src symbol startDate endDate (some timeframe) with
  | .error e => .error e
  | .ok _ =>
    if !(src.supportsTimeframe timeframe) then .error "Timeframe not supported"
    else .ok (src.providerBars startDate endDate)

/-- `DataManager._select_source` for bars (`data_manager.py` lines
133-158): the first source in priority order that supports the symbol. -/
def selectSource (sources : List SourceModel) (symbol : String) : Option SourceModel :=
  sources.find? (fun s => s.supportsSymbol symbol)

/-- Observable events of one `fetch_data` call, in order. -/
inductive FEvent where
  | storageCheck : FEvent
  | storageLoad : FEvent
  | storageSave : FEvent
  | providerDownload : FEvent
  | errorSwallowed : String → FEvent
deriving DecidableEq, Repr

/-- The download loop of `fetch_data` (`data_manager.py` lines 213-233):
for each missing range call the source; any exception is printed and
swallowed (`continue`); non-empty results are saved to storage. -/
def downloadLoop (src : SourceModel) (symbol timeframe : String) :
    List (Int × Int) → LSState → List FEvent → LSState × List FEvent
  | [], st, evs => (st, evs)
  | (a, b2) :: rest, st, evs =>
    match sourceGetData src symbol a b2 timeframe with
    | .error e => downloadLoop src symbol timeframe rest st (evs ++ [FEvent.errorSwallowed e])
    | .ok [] => downloadLoop src symbol timeframe rest st (evs ++ [FEvent.providerDownload])
    | .ok (b0 :: bs) =>
      downloadLoop src symbol timeframe rest
        (LocalStorage.saveBars (b0 :: bs) symbol timeframe src.name st).2
        (evs ++ [FEvent.providerDownload, FEvent.storageSave])

/-- The tail of `fetch_data` once a source is selected and the existing
data is not a full hit: compute the missing ranges (a second
`check_exists`), download them, then read the requested range back. -/
def fetchDownloadPhase (src : SourceModel) (st : LSState) (symbol : String)
    (startDate endDate : Int) (timeframe : String) :
    List LSBarRow × LSState × List FEvent :=
  let missing := getMissingRanges st symbol timeframe startDate endDate "bars"
  if missing.isEmpty then
    (LocalStorage.loadBars st symbol timeframe startDate endDate, st,
     [FEvent.storageCheck, FEvent.storageCheck, FEvent.storageLoad])
  else
    let r := downloadLoop src symbol timeframe missing st
      [FEvent.storageCheck, FEvent.storageCheck]
    (LocalStorage.loadBars r.1 symbol timeframe startDate endDate, r.1,
     r.2 ++ [FEvent.storageLoad])

/-- `DataManager.fetch_data` (`data_manager.py` lines 160-243) for
`data_type='bars'`, `force_download=False`, and a selected source whose
name is not `"dukascopy"` (so the tick-resampling branch is skipped):
select a source (raising `ValueError` when none supports the symbol),
check storage for a full hit, otherwise resolve the missing ranges,
download and save them — swallowing any per-range exception — and finally
return whatever storage holds for the requested range.  No parameter
validation happens before storage is consulted. -/
def fetchData (sources : List SourceModel) (st : LSState) (symbol : String)
    (startDate endDate : Int) (timeframe : String) :
    Except String (List LSBarRow × LSState × List FEvent) :=
  match selectSource sources symbol with
  | none => .error "No data source supports symbol"
  | some src =>
    match LocalStorage.checkExists st symbol timeframe startDate endDate "bars" with
    | some p =>
      if decide (p.1 ≤ startDate) && decide (p.2 ≥ endDate) then
        .ok (LocalStorage.loadBars st symbol timeframe startDate endDate, st,
             [FEvent.storageCheck, FEvent.storageLoad])
      else .ok (fetchDownloadPhase src st symbol startDate endDate timeframe)
    | none => .ok (fetchDownloadPhase src st symbol startDate endDate timeframe)

/-- `BinanceSource.normalize_symbol`'s separator stripping and upper-casing
(`symbol.replace('/','').replace('-','').replace('_','').upper()`). -/
def stripSeparatorsUpper (s : String) : String :=
  String.mk (s.data.filterMap (fun ch =>
    if ch = '/' ∨ ch = '-' ∨ ch = '_' then none else some ch.toUpper))

/-- `BinanceSource.normalize_symbol` (`binance_source.py` lines 235-254),
including the `BCHUSDT → BCHUSD` mapping. -/
def binanceNormalizeSymbol (symbol : String) : String :=
  let normalized := stripSeparatorsUpper symbol
  if normalized == "BCHUSDT" then "BCHUSD" else normalized

/-- The fallback symbol list of `BinanceSource._fetch_available_symbols`
(`binance_source.py` lines 217-220), used here as the concrete instance of
the API-provided symbol set. -/
def binanceFallbackSymbols : List String :=
  ["BTCUSDT", "ETHUSDT", "ADAUSDT", "DOTUSDT", "LINKUSDT",
   "LTCUSDT", "XRPUSDT", "BCHUSD", "XLMUSDT", "UNIUSDT"]

/-- The keys of `BinanceSource.TIMEFRAME_MAP`. -/
def binanceTimeframeTokens : List String :=
  ["1m", "3m", "5m", "15m", "30m", "1h", "2h", "4h", "6h", "8h", "12h",
   "1d", "3d", "1w", "1M"]

/-- A `BinanceSource` with an arbitrary provider download.  Its name is not
`"dukascopy"`, so `fetch_data`'s tick-resampling branch is skipped. -/
def binanceModel (providerBars : Int → Int → List RBar) : SourceModel :=
  { name := "binance",
    supportsSymbol := fun s => binanceFallbackSymbols.contains (binanceNormalizeSymbol s),
    supportsTimeframe := fun tf => binanceTimeframeTokens.contains tf,
    providerBars := providerBars }

/-- C6 counterexample: a request with `start >= end` (100 ≥ 50) for a
supported symbol is **not** rejected synchronously.  `fetch_data` consults
storage twice before any validation runs, the `ValueError` raised inside
the source is swallowed, and the call returns normally with whatever
storage holds. -/
theorem fetchData_invalid_range_not_rejected :
    fetchData [binanceModel (fun _ _ => [])] LSState.empty "BTCUSDT" 100 50 "1h" =
      .ok ([], LSState.empty,
        [FEvent.storageCheck, FEvent.storageCheck,
         FEvent.errorSwallowed "Start date must be before end date", FEvent.storageLoad]) := by
  rfl

/-- C6 (amended): what the code actually does with invalid requests.

1. `validate_parameters` raises exactly on: empty symbol, `start >= end`,
   unsupported symbol, or a truthy unsupported timeframe — but it runs
   inside the source's `get_data`, not before storage is touched.
2. A symbol no source supports is rejected before any storage or provider
   call (`fetch_data` raises while selecting the source).
3. With a selected source, a request with `start >= end` (and no stored
   coverage) is **not** rejected: `fetch_data` performs two storage checks
   first, the validation error raised per missing range is swallowed, no
   provider download happens, the state is unchanged, and the call
   returns the stored (empty) range as a success. -/
theorem validation_and_fetch_behavior :
    (∀ (src : SourceModel) (symbol : String) (startDate endDate : Int) (tf : String),
      (∃ msg, validateParameters src symbol startDate endDate (some tf) = .error msg) ↔
        (symbol = "" ∨ startDate ≥ endDate ∨ src.supportsSymbol symbol = false ∨
         (tf ≠ "" ∧ src.supportsTimeframe tf = false))) ∧
    (∀ (sources : List SourceModel) (st : LSState) (symbol tf : String) (s e : Int),
      selectSource sources symbol = none →
      fetchData sources st symbol s e tf = .error "No data source supports symbol") ∧
    (∀ (sources : List SourceModel) (st : LSState) (symbol tf : String) (s e : Int)
       (src : SourceModel),
      selectSource sources symbol = some src →
      s ≥ e →
      LocalStorage.checkExists st symbol tf s e "bars" = none →
      ∃ msg, fetchData sources st symbol s e tf =
        .ok (LocalStorage.loadBars st symbol tf s e, st,
          [FEvent.storageCheck, FEvent.storageCheck, FEvent.errorSwallowed msg,
           FEvent.storageLoad])) := by
  refine ⟨?_, ?_, ?_⟩
  · intro src symbol startDate endDate tf
    constructor
    · rintro ⟨msg, hmsg⟩
      simp only [validateParameters] at hmsg
      split_ifs at hmsg with h1 h2 h3 h4
      · exact Or.inl (by simpa using h1)
      · exact Or.inr (Or.inl h2)
      · exact Or.inr (Or.inr (Or.inl (by simpa using h3)))
      · rw [Bool.and_eq_true] at h4
        exact Or.inr (Or.inr (Or.inr ⟨by simpa using h4.1, by simpa using h4.2⟩))
    · rintro (h | h | h | ⟨htf, hsupp⟩) <;> simp only [validateParameters] <;>
        split_ifs <;> first | exact ⟨_, rfl⟩ | simp_all
  · intro sources st symbol tf s e hnone
    simp only [fetchData, hnone]
  · intro sources st symbol tf s e src hsel hse hcov
    have hval : ∃ msg, validateParameters src symbol s e (some tf) = .error msg := by
      by_cases h1 : (symbol == "") = true
      · exact ⟨_, by simp only [validateParameters]; rw [if_pos h1]⟩
      · exact ⟨_, by simp only [validateParameters]; rw [if_neg h1, if_pos hse]⟩
    obtain ⟨msg, hval⟩ := hval
    have hsgd : sourceGetData src symbol s e tf = .error msg := by
      simp only [sourceGetData, hval]
    have hmiss : getMissingRanges st symbol tf s e "bars" = [(s, e)] := by
      simp only [getMissingRanges, hcov]
    refine ⟨msg, ?_⟩
    simp only [fetchData, hsel, hcov, fetchDownloadPhase, hmiss, List.isEmpty_cons,
      Bool.false_eq_true, if_false, downloadLoop, hsgd]
    rfl

/-- C6 witness: instantiating `validation_and_fetch_behavior` — the empty
symbol is flagged by validation, an unsupported symbol makes `fetch_data`
raise before storage, and an inverted range against empty storage is
swallowed after two storage checks. -/
theorem validation_and_fetch_behavior_witness :
    (∃ msg, validateParameters (binanceModel (fun _ _ => [])) "" 0 10 (some "1h") =
      .error msg) ∧
    fetchData [] LSState.empty "BTCUSDT" 0 10 "1h" = .error "No data source supports symbol" ∧
    (∃ msg, fetchData [binanceModel (fun _ _ => [])] LSState.empty "BTCUSDT" 100 50 "1h" =
      .ok (LocalStorage.loadBars LSState.empty "BTCUSDT" "1h" 100 50, LSState.empty,
        [FEvent.storageCheck, FEvent.storageCheck, FEvent.errorSwallowed msg,
         FEvent.storageLoad])) :=
  ⟨(validation_and_fetch_behavior.1 (binanceModel (fun _ _ => [])) "" 0 10 "1h").mpr
     (Or.inl rfl),
   validation_and_fetch_behavior.2.1 [] LSState.empty "BTCUSDT" "1h" 0 10 rfl,
   validation_and_fetch_behavior.2.2 [binanceModel (fun _ _ => [])] LSState.empty
     "BTCUSDT" "1h" 100 50 (binanceModel (fun _ _ => [])) rfl (by omega) rfl⟩
